import Mathlib

/-!
Verification of the ifnotnow outline/attention-tracking core.

Shallow embedding conventions:
- `chrono::DateTime<Utc>` timestamps (`DTUtc`) are modelled as `Nat` seconds
  since the epoch; durations use `Nat` subtraction.
- The external `regex` crate's compiler is modelled as an abstract boolean
  parameter `compiles : String → Bool`.
- The file system backing the store is modelled as an association list from
  filename to document content; `serde_yaml` (de)serialization, being external
  library code, is either abstracted as a parameter or, for the round-trip
  property, modelled from the spec as a structured encoder/decoder.
- `Utc::now()` calls become explicit `now : Nat` arguments.
-/

set_option maxHeartbeats 1000000

namespace IfNotNow

/-- Timestamps (`DTUtc = DateTime<Utc>`) modelled as seconds since the epoch. -/
abbrev DTUtc := Nat

/-- Global file-extension constant `IFNOTNOW_EXTENSION = ".inn.yaml"`. -/
def IFNOTNOW_EXTENSION : String := ".inn.yaml"

/-- `enum Pattern { Keyword(String), Regex(String) }`. -/
inductive Pattern where
  | Keyword (s : String)
  | Regex (s : String)
deriving DecidableEq, Repr

/-- `enum PatternErr { InvalidRegex }` — patterns may have syntax errors. -/
inductive PatternErr where
  | InvalidRegex
deriving DecidableEq, Repr

/-- `Pattern::check_errors`: a `Keyword` never errs; a `Regex` errs exactly when
the external regex compiler rejects its source. The external
`regex::Regex::new` is abstracted as the boolean `compiles`. -/
def Pattern.check_errors (compiles : String → Bool) : Pattern → Option PatternErr
  | .Keyword _ => none
  | .Regex rx => if compiles rx then none else some PatternErr.InvalidRegex

/-- Default body of `Matchable::matches`: the source's provided trait method
body is the stub `Ok(0)`, ignoring both the traited data and the pattern.
No type in the source overrides it. -/
def Matchable.matches {α : Type} (self : α) (pattern : Pattern) : Except PatternErr Nat :=
  Except.ok 0

/-- Fuel-driven scanner underlying `countOcc`; the fuel only bounds the
recursion depth (one unit per examined suffix), so `text.length` units
always suffice. -/
def countOccAux : Nat → List Char → List Char → Nat
  | 0, _, _ => 0
  | _, [], _ => 0
  | fuel + 1, c :: rest, pat =>
    if pat ≠ [] ∧ pat.isPrefixOf (c :: rest)
    then 1 + countOccAux fuel ((c :: rest).drop pat.length) pat
    else countOccAux fuel rest pat

/-- Number of non-overlapping occurrences of `pat` in `text` (case-sensitive,
on character lists). Reference definition written from the spec sentence
"Keyword counts non-overlapping case-sensitive substring occurrences"; used
only to state divergences from the stubbed `Matchable.matches`. -/
def countOcc (text pat : List Char) : Nat :=
  countOccAux text.length text pat

/-- `struct Timespan { duration_s: u64 }` (non-negative whole seconds). -/
structure Timespan where
  duration_s : Nat
deriving DecidableEq, Repr

/-- `Timespan::new`. -/
def Timespan.new (duration_s : Nat) : Timespan := { duration_s }

/-- `impl fmt::Display for Timespan`: renders as `<n>s`. -/
def Timespan.display (t : Timespan) : String := toString t.duration_s ++ "s"

/-- `enum AttentionEvent`, each variant carrying a UTC timestamp. -/
inductive AttentionEvent where
  | Created (t : DTUtc)
  | Started (t : DTUtc)
  | Paused (t : DTUtc)
  | WaitingFor (t : DTUtc) (reason : String)
  | Abandoned (t : DTUtc)
  | Finished (t : DTUtc)
deriving DecidableEq, Repr

/-- The timestamp carried by an attention event. -/
def AttentionEvent.ts : AttentionEvent → DTUtc
  | .Created t => t
  | .Started t => t
  | .Paused t => t
  | .WaitingFor t _ => t
  | .Abandoned t => t
  | .Finished t => t

/-- `struct Goal { label: String, done: bool }`. -/
structure Goal where
  label : String
  done : Bool
deriving DecidableEq, Repr

/-- `Goal::new`. -/
def Goal.new (label : String) (done : Bool) : Goal := { label, done }

/-- `struct CheckTimebox`: a tracked goal with attention history, cached
accrued time and an advisory budget. -/
structure CheckTimebox where
  label : String
  done : Option DTUtc
  history : List AttentionEvent
  accrued : Timespan
  budget : Timespan
deriving DecidableEq, Repr

/-- `CheckTimebox::new`: zero accrued, 3600-second budget, history seeded with
a single `Created` event stamped at construction time (`Utc::now()` is the
explicit `now` argument). -/
def CheckTimebox.new (label : String) (done : Option DTUtc) (now : DTUtc) : CheckTimebox :=
  { label
  , done
  , accrued := Timespan.new 0
  , budget := Timespan.new 3600
  , history := [AttentionEvent.Created now] }

mutual
/-- `struct ListV1 { name: String, items: Vec<ListItem> }` — a named outline. -/
inductive ListV1 where
  | mk (name : String) (items : List ListItem) : ListV1

/-- `enum ListItem`: the tagged item variants of an outline, with recursive
`Sublist` nesting. -/
inductive ListItem where
  | Heading (text : String) : ListItem
  | Entry (text : String) : ListItem
  | Goal (g : Goal) : ListItem
  | Timebox (tb : CheckTimebox) : ListItem
  | Sublist (sub : ListV1) : ListItem
  | Note (text : String) : ListItem
end

/-- Projection for the `name` field of `ListV1`. -/
def ListV1.name : ListV1 → String
  | .mk n _ => n

/-- Projection for the `items` field of `ListV1`. -/
def ListV1.items : ListV1 → List ListItem
  | .mk _ xs => xs

/-- `ListV1::new`: empty item sequence. -/
def ListV1.new (name : String) : ListV1 := .mk name []

/-- `ListV1::filename`: name plus the fixed extension. -/
def ListV1.filename (name : String) : String := name ++ IFNOTNOW_EXTENSION

/-- `struct ListMap { lmap: BTreeMap<String, ListV1> }`: the in-memory store,
with the `BTreeMap` modelled as a key-sorted association list. -/
structure ListMap where
  lmap : List (String × ListV1)

/-- `BTreeMap::insert` on the sorted-association-list model: replaces the
value when the key is present, otherwise inserts at the sorted position. -/
def btreeInsert (k : String) (v : ListV1) : List (String × ListV1) → List (String × ListV1)
  | [] => [(k, v)]
  | (k0, v0) :: rest =>
    if k = k0 then (k, v) :: rest
    else if k < k0 then (k, v) :: (k0, v0) :: rest
    else (k0, v0) :: btreeInsert k v rest

/-- `BTreeMap::get` on the sorted-association-list model. -/
def btreeGet (k : String) : List (String × ListV1) → Option ListV1
  | [] => none
  | (k0, v0) :: rest => if k = k0 then some v0 else btreeGet k rest

/-- `ListMap::new`. -/
def ListMap.new : ListMap := { lmap := [] }

/-- `ListMap::add`: unconditionally inserts a fresh empty `ListV1::new
listname` under `listname`. -/
def ListMap.add (m : ListMap) (listname : String) : ListMap :=
  { lmap := btreeInsert listname (ListV1.new listname) m.lmap }

/-- `ListMap::drop`: removes the entry for `listname`. -/
def ListMap.drop (m : ListMap) (listname : String) : ListMap :=
  { lmap := m.lmap.filter (fun p => p.1 ≠ listname) }

/-! ## Attention tracker (spec-modelled)

The source declares `AttentionEvent` and `CheckTimebox` but contains no
transition or accrual function; §4.2 of the spec defines both.  The
definitions below are modelled from the spec. -/

/-- Attention-tracker states of §4.2. -/
inductive TBState where
  | created
  | active
  | paused
  | waiting
  | finished
  | abandoned
deriving DecidableEq, Repr

/-- State denoted by a single attention event. -/
def eventState : AttentionEvent → TBState
  | .Created _ => .created
  | .Started _ => .active
  | .Paused _ => .paused
  | .WaitingFor _ _ => .waiting
  | .Abandoned _ => .abandoned
  | .Finished _ => .finished

/-- Current state of a timebox: the state denoted by the last event of its
history (`created` for an empty history, which never arises since
construction seeds `Created`). -/
def currentState (h : List AttentionEvent) : TBState :=
  match h.getLast? with
  | some e => eventState e
  | none => TBState.created

/-- `Finished` and `Abandoned` are the terminal states. -/
def TBState.isTerminal : TBState → Bool
  | .finished => true
  | .abandoned => true
  | _ => false

/-- The typed error of an illegal attention-event transition. -/
inductive TransitionErr where
  | InvalidTransition
deriving DecidableEq, Repr

mutual
/-- Modelled from the spec: accrued time as a pure function of history plus
the evaluation instant — the sum, over consecutive `Started` →
{`Paused`, `WaitingFor`, `Finished`, `Abandoned`} pairs in history, of the
elapsed difference, plus, for an unmatched trailing `Started`, the elapsed
time from that `Started` to the evaluation instant `now`. -/
def accruedCompute : List AttentionEvent → DTUtc → Nat
  | [], _ => 0
  | .Started t :: rest, now => closeInterval t rest now
  | _ :: rest, now => accruedCompute rest now

/-- Modelled from the spec: close the active interval opened at `t` at the
first pausing/waiting/finishing/abandoning event, or at `now` when the
`Started` is unmatched; other events inside the interval are skipped. -/
def closeInterval (t : DTUtc) : List AttentionEvent → DTUtc → Nat
  | [], now => now - t
  | .Paused t2 :: rest, now => (t2 - t) + accruedCompute rest now
  | .WaitingFor t2 _ :: rest, now => (t2 - t) + accruedCompute rest now
  | .Finished t2 :: rest, now => (t2 - t) + accruedCompute rest now
  | .Abandoned t2 :: rest, now => (t2 - t) + accruedCompute rest now
  | _ :: rest, now => closeInterval t rest now
end

/-- Modelled from the spec: the transition function
`applyEvent(Timebox, AttentionEvent) -> Result<Timebox, InvalidTransition>`
of §4.2.  Rejects any event when the current state is terminal; `Created` is
only the synthetic first entry and is rejected thereafter; `Started` is
accepted from `created`/`paused`/`waiting`; `Paused` and `WaitingFor` only
from `active`; `Abandoned` and `Finished` from any non-terminal state,
`Finished` additionally setting `done`.  An accepted event is appended and
the `accrued` cache is refreshed from the pure accrual function at the
event's timestamp; a rejected event returns the error and no timebox, so
history and accrued are untouched. -/
def applyEvent (tb : CheckTimebox) (e : AttentionEvent) : Except TransitionErr CheckTimebox :=
  let st := currentState tb.history
  if st.isTerminal then Except.error TransitionErr.InvalidTransition
  else
    let accept (tb2 : CheckTimebox) : Except TransitionErr CheckTimebox :=
      Except.ok { tb2 with
                  history := tb2.history ++ [e]
                , accrued := Timespan.new (accruedCompute (tb2.history ++ [e]) e.ts) }
    match e with
    | .Created _ => Except.error TransitionErr.InvalidTransition
    | .Started _ =>
      if st = TBState.created ∨ st = TBState.paused ∨ st = TBState.waiting
      then accept tb
      else Except.error TransitionErr.InvalidTransition
    | .Paused _ =>
      if st = TBState.active then accept tb
      else Except.error TransitionErr.InvalidTransition
    | .WaitingFor _ _ =>
      if st = TBState.active then accept tb
      else Except.error TransitionErr.InvalidTransition
    | .Abandoned _ => accept tb
    | .Finished t => accept { tb with done := some t }

/-! ## Rendering -/

mutual
/-- `render_list`: accumulates one line per item; the loop
`out = format!(..)` appends each item's rendering in order. -/
def render_list : ListV1 → String → String
  | .mk _ items, indent => render_items items indent

/-- Rendering of a sequence of items: concatenation in order. -/
def render_items : List ListItem → String → String
  | [], _ => ""
  | x :: rest, indent => render_item x indent ++ render_items rest indent

/-- Rendering of a single item, following the `format!` strings of
`render_list` exactly; note the `Sublist` arm calls `render_list(sub, "   ")`
with a fixed three-space indent, not `indent` extended by three spaces. -/
def render_item : ListItem → String → String
  | .Heading txt, indent => indent ++ "## " ++ txt ++ "\n"
  | .Note txt, indent => indent ++ "> " ++ txt ++ "\n"
  | .Goal cb, indent =>
    indent ++ " - [" ++ (if cb.done then "x" else " ") ++ "] " ++
      (if cb.done then "~~" ++ cb.label ++ "~~" else cb.label) ++ "\n"
  | .Timebox tb, indent =>
    indent ++ " - [?] " ++ tb.label ++ " (.." ++ tb.accrued.display ++
      " <=" ++ tb.budget.display ++ ")\n"
  | .Entry ent, indent => indent ++ " - " ++ ent ++ "\n"
  | .Sublist sub, _ => render_list sub "   "
end

/-- Wraps an item in `d` nested singleton sublists; the depth gauge used by
the indentation theorems. -/
def nestSub : Nat → ListItem → ListItem
  | 0, x => x
  | d + 1, x => ListItem.Sublist (ListV1.mk "s" [nestSub d x])

/-! ## Filesystem-backed store operations

The backing medium is an association list from filename to document
content (content type `α`: `String` for the abstractly serialized
operations, `Value` for the spec-modelled round trip). -/

/-- Write a file: `File::create` truncates/overwrites an existing file, so
the model replaces the value when the key is present and appends
otherwise. -/
def fsInsert {α : Type} : List (String × α) → String → α → List (String × α)
  | [], k, v => [(k, v)]
  | (k0, v0) :: rest, k, v =>
    if k0 = k then (k, v) :: rest else (k0, v0) :: fsInsert rest k v

/-- `enum INNError { Yaml(serde_yaml::Error), File(std::io::Error) }`; the
external error payloads are dropped. -/
inductive INNError where
  | Yaml
  | File
deriving DecidableEq, Repr

/-- `ListV1::load`: open the file named `ListV1::filename name` (failure is
`INNError::File`), then deserialize its content (failure is
`INNError::Yaml`).  `serde_yaml::from_reader` is the abstract `de`. -/
def ListV1.load {α : Type} (de : α → Option ListV1) (fs : List (String × α))
    (name : String) : Except INNError ListV1 :=
  match fs.lookup (ListV1.filename name) with
  | none => Except.error INNError.File
  | some content =>
    match de content with
    | some l => Except.ok l
    | none => Except.error INNError.Yaml

/-- `starter_timeline`: the fixed starter document; the two `Utc::now()`
calls become the explicit `now`. -/
def starter_timeline (now : DTUtc) : ListV1 :=
  ListV1.mk "Your Starter Timeline"
    [ ListItem.Heading "Welcome to Your Starter Timeline"
    , ListItem.Note
        "This is an example timeline that shows the kinds of items you can capture in them."
    , ListItem.Goal (Goal.new "A TODO Item" false)
    , ListItem.Goal (Goal.new "A done TODO Item" true)
    , ListItem.Goal (Goal.new "A TODO Item" false)
    , ListItem.Timebox (CheckTimebox.new "A Second TODO Item" (some now) now)
    , ListItem.Sublist (ListV1.new "nested list") ]

/-- Typed store errors that `init_timeline` could have returned. -/
inductive StoreErr where
  | AlreadyExists
  | IOErr
deriving DecidableEq, Repr

/-- Observable outcome of `init_timeline`: the filesystem after the call,
the lines printed to stderr, and the function's return value. -/
structure InitOutcome where
  fs : List (String × String)
  stderr : List String
  ret : Except StoreErr Unit
deriving Repr

/-- `init_timeline`: serializes the starter or a fresh empty timeline, then,
if the target file exists, prints an error to stderr and leaves the
filesystem alone — returning `Ok(())` in both branches, as the source does
(`serde_yaml::to_string` is the abstract `ser`; file writes in the model
always succeed). -/
def init_timeline (ser : ListV1 → String) (now : DTUtc)
    (fs : List (String × String)) (name : String) : InitOutcome :=
  let timeline := if name = "starter" then starter_timeline now else ListV1.new name
  let timeline_yaml := ser timeline
  let filename := name ++ IFNOTNOW_EXTENSION
  if (fs.lookup filename).isSome then
    { fs := fs
    , stderr := ["ERROR: " ++ filename ++ " exists, not overwriting"]
    , ret := Except.ok () }
  else
    { fs := fsInsert fs filename timeline_yaml
    , stderr := []
    , ret := Except.ok () }

/-- Outcome of a `run_*` entry point: a normal return carrying its
observable result, or a process abort (`panic!`). -/
inductive RunOutcome (α : Type) where
  | ok (val : α)
  | panicked
deriving Repr

/-- `run_now`: loads the timeline and renders it (the printed lines are the
returned value); on any load error the source calls `panic!`, modelled as
the `panicked` outcome. -/
def run_now {α : Type} (de : α → Option ListV1) (fs : List (String × α))
    (name : String) : RunOutcome (List String) :=
  match ListV1.load de fs name with
  | Except.ok timeline => RunOutcome.ok ["# " ++ timeline.name, render_list timeline ""]
  | Except.error _ => RunOutcome.panicked

/-- The save step of `run_add` (`File::create` + `write_all` of the
serialized timeline): overwrites unconditionally. -/
def save {α : Type} (ser : ListV1 → α) (fs : List (String × α)) (name : String)
    (timeline : ListV1) : List (String × α) :=
  fsInsert fs (ListV1.filename name) (ser timeline)

/-- `run_add`: loads the timeline, appends a `Goal` when one was supplied,
and saves; on any load error the source calls `panic!`. -/
def run_add {α : Type} (de : α → Option ListV1) (ser : ListV1 → α)
    (fs : List (String × α)) (name : String) (goal : Option String) :
    RunOutcome (List (String × α)) :=
  match ListV1.load de fs name with
  | Except.ok timeline =>
    let timeline2 :=
      match goal with
      | some g => ListV1.mk timeline.name (timeline.items ++ [ListItem.Goal (Goal.new g false)])
      | none => timeline
    RunOutcome.ok (save ser fs name timeline2)
  | Except.error _ => RunOutcome.panicked

/-! ## Structured serialization (spec-modelled)

The persisted document format is produced by the external `serde_yaml`
crate, which is not part of this repository.  Modelled from the spec: a
structured serialization of the Context matching the data model exactly,
with nested Sublist entries inlined and a schema tag (`"list/v1"`). -/

/-- Structured document values: scalars, sequences, and tagged nodes. -/
inductive Value where
  | vstr (s : String)
  | vnat (n : Nat)
  | vbool (b : Bool)
  | vnone
  | vlist (vs : List Value)
  | vtag (tag : String) (fields : List Value)

/-- Modelled from the spec: serialization of an attention event. -/
def encodeEvent : AttentionEvent → Value
  | .Created t => .vtag "Created" [.vnat t]
  | .Started t => .vtag "Started" [.vnat t]
  | .Paused t => .vtag "Paused" [.vnat t]
  | .WaitingFor t r => .vtag "WaitingFor" [.vnat t, .vstr r]
  | .Abandoned t => .vtag "Abandoned" [.vnat t]
  | .Finished t => .vtag "Finished" [.vnat t]

/-- Modelled from the spec: deserialization of an attention event. -/
def decodeEvent : Value → Option AttentionEvent
  | .vtag "Created" [.vnat t] => some (.Created t)
  | .vtag "Started" [.vnat t] => some (.Started t)
  | .vtag "Paused" [.vnat t] => some (.Paused t)
  | .vtag "WaitingFor" [.vnat t, .vstr r] => some (.WaitingFor t r)
  | .vtag "Abandoned" [.vnat t] => some (.Abandoned t)
  | .vtag "Finished" [.vnat t] => some (.Finished t)
  | _ => none

/-- Serialization of an event sequence. -/
def encodeEvents (es : List AttentionEvent) : List Value :=
  es.map encodeEvent

/-- Deserialization of an event sequence; fails if any entry fails. -/
def decodeEvents : List Value → Option (List AttentionEvent)
  | [] => some []
  | v :: vs =>
    match decodeEvent v, decodeEvents vs with
    | some e, some es => some (e :: es)
    | _, _ => none

/-- Modelled from the spec: serialization of a `Goal`. -/
def encodeGoal (g : Goal) : Value :=
  .vtag "Goal" [.vstr g.label, .vbool g.done]

/-- Modelled from the spec: deserialization of a `Goal`. -/
def decodeGoal : Value → Option Goal
  | .vtag "Goal" [.vstr label, .vbool done] => some { label, done }
  | _ => none

/-- Serialization of the optional `done` timestamp. -/
def encodeDone : Option DTUtc → Value
  | none => .vnone
  | some t => .vtag "Some" [.vnat t]

/-- Deserialization of the optional `done` timestamp. -/
def decodeDone : Value → Option (Option DTUtc)
  | .vnone => some none
  | .vtag "Some" [.vnat t] => some (some t)
  | _ => none

/-- Modelled from the spec: serialization of a `CheckTimebox`. -/
def encodeTimebox (tb : CheckTimebox) : Value :=
  .vtag "CheckTimebox"
    [ .vstr tb.label
    , encodeDone tb.done
    , .vlist (encodeEvents tb.history)
    , .vnat tb.accrued.duration_s
    , .vnat tb.budget.duration_s ]

/-- Modelled from the spec: deserialization of a `CheckTimebox`. -/
def decodeTimebox : Value → Option CheckTimebox
  | .vtag "CheckTimebox" [.vstr label, dv, .vlist hv, .vnat acc, .vnat bud] =>
    match decodeDone dv, decodeEvents hv with
    | some done, some history =>
      some { label, done, history
           , accrued := Timespan.new acc, budget := Timespan.new bud }
    | _, _ => none
  | _ => none

mutual
/-- Modelled from the spec: serialization of a whole Context, carrying the
schema tag `list/v1` and inlining nested sublists. -/
def encodeListV1 : ListV1 → Value
  | .mk n xs => .vtag "list/v1" [.vstr n, .vlist (encodeItems xs)]

/-- Serialization of an item sequence. -/
def encodeItems : List ListItem → List Value
  | [] => []
  | x :: xs => encodeItem x :: encodeItems xs

/-- Serialization of a single item. -/
def encodeItem : ListItem → Value
  | .Heading s => .vtag "Heading" [.vstr s]
  | .Entry s => .vtag "Entry" [.vstr s]
  | .Goal g => .vtag "Goal" [encodeGoal g]
  | .Timebox tb => .vtag "Timebox" [encodeTimebox tb]
  | .Sublist sub => .vtag "Sublist" [encodeListV1 sub]
  | .Note s => .vtag "Note" [.vstr s]
end

mutual
/-- Modelled from the spec: deserialization of a whole Context. -/
def decodeListV1 : Value → Option ListV1
  | .vtag "list/v1" [.vstr n, .vlist vs] =>
    match decodeItems vs with
    | some xs => some (ListV1.mk n xs)
    | none => none
  | _ => none

/-- Deserialization of an item sequence; fails if any entry fails. -/
def decodeItems : List Value → Option (List ListItem)
  | [] => some []
  | v :: vs =>
    match decodeItem v, decodeItems vs with
    | some x, some xs => some (x :: xs)
    | _, _ => none

/-- Deserialization of a single item. -/
def decodeItem : Value → Option ListItem
  | .vtag "Heading" [.vstr s] => some (.Heading s)
  | .vtag "Entry" [.vstr s] => some (.Entry s)
  | .vtag "Goal" [v] => (decodeGoal v).map ListItem.Goal
  | .vtag "Timebox" [v] => (decodeTimebox v).map ListItem.Timebox
  | .vtag "Sublist" [v] => (decodeListV1 v).map ListItem.Sublist
  | .vtag "Note" [.vstr s] => some (.Note s)
  | _ => none
end

/-! ## Helper lemmas -/

theorem btreeGet_insert_self (k : String) (v : ListV1) (l : List (String × ListV1)) :
    btreeGet k (btreeInsert k v l) = some v := by
  induction l with
  | nil => simp [btreeInsert, btreeGet]
  | cons p rest ih =>
    obtain ⟨k0, v0⟩ := p
    by_cases h : k = k0
    · simp [btreeInsert, btreeGet, h]
    · by_cases h2 : k < k0
      · simp [btreeInsert, btreeGet, h, h2]
      · simp [btreeInsert, btreeGet, h, h2, ih]

theorem btreeGet_insert_ne (k kq : String) (v : ListV1) (l : List (String × ListV1))
    (hne : kq ≠ k) : btreeGet kq (btreeInsert k v l) = btreeGet kq l := by
  induction l with
  | nil => simp [btreeInsert, btreeGet, hne]
  | cons p rest ih =>
    obtain ⟨k0, v0⟩ := p
    by_cases h : k = k0
    · subst h
      simp [btreeInsert, btreeGet, hne]
    · by_cases h2 : k < k0
      · simp [btreeInsert, btreeGet, hne, h, h2]
      · simp [btreeInsert, btreeGet, h, h2, ih]

theorem lookup_fsInsert {α : Type} (fs : List (String × α)) (k : String) (v : α) :
    (fsInsert fs k v).lookup k = some v := by
  induction fs with
  | nil => simp [fsInsert, List.lookup]
  | cons p rest ih =>
    obtain ⟨k0, v0⟩ := p
    by_cases h : k0 = k
    · subst h
      simp [fsInsert, List.lookup]
    · have hbeq : (k == k0) = false := by
        simp [Ne.symm h]
      simp [fsInsert, List.lookup, h, hbeq, ih]

theorem decodeEvent_encodeEvent (e : AttentionEvent) :
    decodeEvent (encodeEvent e) = some e := by
  cases e <;> rfl

theorem decodeEvents_encodeEvents (es : List AttentionEvent) :
    decodeEvents (encodeEvents es) = some es := by
  induction es with
  | nil => rfl
  | cons e rest ih =>
    simp only [encodeEvents, List.map] at ih ⊢
    simp [decodeEvents, decodeEvent_encodeEvent, ih]

theorem decodeGoal_encodeGoal (g : Goal) : decodeGoal (encodeGoal g) = some g := rfl

theorem decodeDone_encodeDone (d : Option DTUtc) : decodeDone (encodeDone d) = some d := by
  cases d <;> rfl

theorem decodeTimebox_encodeTimebox (tb : CheckTimebox) :
    decodeTimebox (encodeTimebox tb) = some tb := by
  obtain ⟨label, done, history, ⟨acc⟩, ⟨bud⟩⟩ := tb
  simp [encodeTimebox, decodeTimebox, decodeDone_encodeDone, decodeEvents_encodeEvents,
    Timespan.new]

mutual
theorem decode_encode_listV1 : ∀ l : ListV1, decodeListV1 (encodeListV1 l) = some l
  | .mk n xs => by
    simp [encodeListV1, decodeListV1, decode_encode_items xs]

theorem decode_encode_items : ∀ xs : List ListItem, decodeItems (encodeItems xs) = some xs
  | [] => rfl
  | x :: xs => by
    simp [encodeItems, decodeItems, decode_encode_item x, decode_encode_items xs]

theorem decode_encode_item : ∀ x : ListItem, decodeItem (encodeItem x) = some x
  | .Heading s => rfl
  | .Entry s => rfl
  | .Goal g => by simp [encodeItem, decodeItem, decodeGoal_encodeGoal]
  | .Timebox tb => by simp [encodeItem, decodeItem, decodeTimebox_encodeTimebox]
  | .Sublist sub => by simp [encodeItem, decodeItem, decode_encode_listV1 sub]
  | .Note s => rfl
end

theorem render_item_nestSub (txt : String) :
    ∀ (d : Nat) (ind : String),
      render_item (nestSub (d + 1) (ListItem.Note txt)) ind = "   " ++ "> " ++ txt ++ "\n"
  | 0, ind => by
    simp [nestSub, render_item, render_list, render_items, String.append_empty]
  | d + 1, ind => by
    have h1 : nestSub (d + 1 + 1) (ListItem.Note txt)
        = ListItem.Sublist (ListV1.mk "s" [nestSub (d + 1) (ListItem.Note txt)]) := rfl
    rw [h1]
    simp only [render_item, render_list, render_items, String.append_empty]
    exact render_item_nestSub txt d "   "

/-! ## Claim theorems -/

/-- C1: for every Timebox whose current state is terminal (history ending in
`Finished` or `Abandoned`) and every attention event `e`, `applyEvent`
returns the `InvalidTransition` error; no timebox is produced, so the
history and accrued fields of the (immutable) input are untouched and no
event is appended. -/
theorem applyEvent_terminal_rejects (tb : CheckTimebox) (e : AttentionEvent)
    (h : (currentState tb.history).isTerminal = true) :
    applyEvent tb e = Except.error TransitionErr.InvalidTransition := by
  simp [applyEvent, h]

/-- Witness for C1: a finished timebox rejects a further `Started` event. -/
theorem applyEvent_terminal_rejects_witness :
    (currentState [AttentionEvent.Created 0, AttentionEvent.Finished 5]).isTerminal = true ∧
    applyEvent
      { label := "t", done := some 5
      , history := [AttentionEvent.Created 0, AttentionEvent.Finished 5]
      , accrued := Timespan.new 0, budget := Timespan.new 3600 }
      (AttentionEvent.Started 9) = Except.error TransitionErr.InvalidTransition :=
  ⟨rfl, applyEvent_terminal_rejects _ _ rfl⟩

/-- C2 counterexample: the history `[Created 0, Started 1, Paused 3,
Started 5]` ends in an unmatched `Started` at `t1 = 5`; at evaluation
instant `now = 6` the accrual function yields `3` (the closed interval
`3 - 1` plus the open interval `6 - 5`), not `now - t1 = 1` as the claim
states for every history with a trailing unmatched `Started`. -/
theorem accrued_trailing_started_counterexample :
    accruedCompute
      [AttentionEvent.Created 0, AttentionEvent.Started 1, AttentionEvent.Paused 3,
       AttentionEvent.Started 5] 6 = 3 ∧ (3 : Nat) ≠ 6 - 5 :=
  ⟨rfl, by decide⟩

/-- C2 (amended): accrued time is a pure function of history plus the
evaluation instant; a history `[Created t0, Started t1, Paused t2]` accrues
`t2 - t1`, and a history `[Created t0, Started t1]` — a trailing unmatched
`Started` with no earlier closed interval — accrues `now - t1`; earlier
closed intervals are added to the trailing contribution. -/
theorem accrual_correctness (t0 t1 t2 now : DTUtc) :
    accruedCompute
      [AttentionEvent.Created t0, AttentionEvent.Started t1, AttentionEvent.Paused t2] now
      = t2 - t1 ∧
    accruedCompute [AttentionEvent.Created t0, AttentionEvent.Started t1] now = now - t1 := by
  constructor <;> simp [accruedCompute, closeInterval]

/-- C3 counterexample: with a document `x.inn.yaml` already on the backing
medium, `init_timeline` for `"x"` returns `Ok(())` — not the
`AlreadyExists` error the claim requires (the collision is only reported on
stderr). -/
theorem init_timeline_existing_returns_ok :
    (init_timeline (fun _ => "") 0 [(ListV1.filename "x", "orig")] "x").ret = Except.ok () ∧
    (Except.ok () : Except StoreErr Unit) ≠ Except.error StoreErr.AlreadyExists :=
  ⟨rfl, fun h => Except.noConfusion h⟩

/-- C3 (amended): when a document for `name` already exists on the backing
medium, `init_timeline` leaves the filesystem byte-for-byte unchanged
(never overwrites), prints the collision to stderr, and returns success
(`Ok(())`) rather than an `AlreadyExists` error. -/
theorem init_timeline_existing_preserves (ser : ListV1 → String) (now : DTUtc)
    (fs : List (String × String)) (name : String)
    (h : (fs.lookup (name ++ IFNOTNOW_EXTENSION)).isSome = true) :
    (init_timeline ser now fs name).fs = fs ∧
    (init_timeline ser now fs name).stderr
      = ["ERROR: " ++ (name ++ IFNOTNOW_EXTENSION) ++ " exists, not overwriting"] ∧
    (init_timeline ser now fs name).ret = Except.ok () := by
  simp [init_timeline, h]

/-- Witness for C3 (amended): a concrete pre-existing document is preserved. -/
theorem init_timeline_existing_preserves_witness :
    (([("x" ++ IFNOTNOW_EXTENSION, "orig")] : List (String × String)).lookup
        ("x" ++ IFNOTNOW_EXTENSION)).isSome = true ∧
    (init_timeline (fun _ => "") 0 [("x" ++ IFNOTNOW_EXTENSION, "orig")] "x").fs
      = [("x" ++ IFNOTNOW_EXTENSION, "orig")] ∧
    (init_timeline (fun _ => "") 0 [("x" ++ IFNOTNOW_EXTENSION, "orig")] "x").stderr
      = ["ERROR: " ++ ("x" ++ IFNOTNOW_EXTENSION) ++ " exists, not overwriting"] ∧
    (init_timeline (fun _ => "") 0 [("x" ++ IFNOTNOW_EXTENSION, "orig")] "x").ret
      = Except.ok () :=
  ⟨rfl, init_timeline_existing_preserves (fun _ => "") 0
    [("x" ++ IFNOTNOW_EXTENSION, "orig")] "x" rfl⟩

/-- C4: for every regex source the external compiler rejects,
`Pattern::check_errors` yields the invalid-pattern error
(`PatternErr::InvalidRegex`); its result type carries no pattern, so no
usable `Pattern` value is produced and, the function being pure, no side
effect occurs. -/
theorem check_errors_invalid_regex (compiles : String → Bool) (rx : String)
    (h : compiles rx = false) :
    Pattern.check_errors compiles (Pattern.Regex rx) = some PatternErr.InvalidRegex := by
  simp [Pattern.check_errors, h]

/-- Witness for C4: a compiler rejecting everything rejects the source. -/
theorem check_errors_invalid_regex_witness :
    ((fun _ : String => false) "(") = false ∧
    Pattern.check_errors (fun _ : String => false) (Pattern.Regex "(")
      = some PatternErr.InvalidRegex :=
  ⟨rfl, check_errors_invalid_regex (fun _ => false) "(" rfl⟩

/-- C5 (code bug): the default body of `Matchable::matches` is the stub
`Ok(0)`; on text `"aa"` and pattern `Keyword "a"` it returns `Ok 0` although
the number of non-overlapping case-sensitive occurrences — which its own
doc comment promises — is `2`. -/
theorem matches_stub_returns_zero :
    Matchable.matches "aa" (Pattern.Keyword "a") = Except.ok 0 ∧
    countOcc "aa".data "a".data = 2 :=
  ⟨rfl, by decide⟩

/-- C6 (code bug): a load failure in the render path does not produce a
typed error value: `run_now` on a store with no document for `"x"` ends in
`panic!`, aborting the process. -/
theorem run_now_panics_on_load_failure :
    run_now (α := String) (fun _ => none) [] "x" = RunOutcome.panicked := rfl

/-- C7: persistence round trip — saving any Context under any name and then
loading that name reconstructs the same Context, nested `Sublist` items
included (serialization is the spec-modelled structured encoder). -/
theorem save_load_round_trip (fs : List (String × Value)) (name : String) (c : ListV1) :
    ListV1.load decodeListV1 (save encodeListV1 fs name c) name = Except.ok c := by
  unfold ListV1.load save
  rw [lookup_fsInsert]
  simp [decode_encode_listV1]

/-- C8 counterexample: a note nested in two levels of sublists renders with
three leading spaces, not the six (`3 * 2`) the claim requires. -/
theorem render_depth2_indent_counterexample :
    render_list (ListV1.mk "c" [nestSub 2 (ListItem.Note "a")]) "" = "   > a\n" ∧
    ("   > a\n" : String) ≠ "      > a\n" :=
  ⟨rfl, by decide⟩

/-- C8 (amended): sublist contents are indented by exactly three spaces at
every nesting depth `d ≥ 1` — the indent is a fixed `"   "`, not
accumulated per level. -/
theorem render_sublist_constant_indent (d : Nat) (txt : String) :
    render_list (ListV1.mk "c" [nestSub (d + 1) (ListItem.Note txt)]) ""
      = "   " ++ "> " ++ txt ++ "\n" := by
  simp only [render_list, render_items, String.append_empty]
  exact render_item_nestSub txt d ""

/-- C9: a freshly constructed Timebox has exactly the one history event
`Created` at construction time, zero accrued seconds and a 3600-second
budget, for every label and optional done timestamp. -/
theorem new_timebox_initial_state (label : String) (done : Option DTUtc) (now : DTUtc) :
    (CheckTimebox.new label done now).history = [AttentionEvent.Created now] ∧
    (CheckTimebox.new label done now).accrued = Timespan.new 0 ∧
    (CheckTimebox.new label done now).budget = Timespan.new 3600 :=
  ⟨rfl, rfl, rfl⟩

/-- C10: `ListMap::add` unconditionally stores a fresh empty context under
the given name — discarding whatever was stored there — and leaves every
other key untouched; the in-memory map applies no refuse-if-exists
policy. -/
theorem listmap_add_unconditional (m : ListMap) (name k : String) (hk : k ≠ name) :
    btreeGet name (m.add name).lmap = some (ListV1.new name) ∧
    btreeGet k (m.add name).lmap = btreeGet k m.lmap :=
  ⟨btreeGet_insert_self name (ListV1.new name) m.lmap,
   btreeGet_insert_ne name k (ListV1.new name) m.lmap hk⟩

/-- Witness for C10: adding `"x"` over an existing non-empty `"x"` yields
the fresh empty context and leaves `"y"` lookups unchanged. -/
theorem listmap_add_unconditional_witness :
    btreeGet "x"
        ((ListMap.add ⟨[("x", ListV1.mk "x" [ListItem.Note "old"])]⟩ "x").lmap)
      = some (ListV1.new "x") ∧
    btreeGet "y"
        ((ListMap.add ⟨[("x", ListV1.mk "x" [ListItem.Note "old"])]⟩ "x").lmap)
      = btreeGet "y" [("x", ListV1.mk "x" [ListItem.Note "old"])] :=
  listmap_add_unconditional ⟨[("x", ListV1.mk "x" [ListItem.Note "old"])]⟩ "x" "y"
    (by decide)

end IfNotNow
